import Mathlib

/-!
Verification of the repository-provisioning script `create_repo.py`.

The script is a sequential orchestrator against the GitHub API: it resolves
an owner (organization or individual), creates a repository, seeds branches,
configures access teams, upserts a CODEOWNERS file and a CI workflow file,
and applies branch protection.  We shallowly embed each routine as a pure
Lean function over an explicit environment describing the platform's
responses, and prove or refute the specification's claims about them.
-/

/-! ## Configuration parsing (`create_branches`, lines 26-27)

Python: `branch_names_env = os.getenv("BRANCH_NAMES", "dev,qa")` followed by
`[b.strip() for b in branch_names_env.split(",") if b.strip()]`.
Core `String.splitOn`/`String.trim` do not reduce in the kernel, so we embed
Python `str.split(",")` and `str.strip()` as structurally recursive functions
on character lists with the same semantics. -/

/-- Python `s.split(",")`: splits on every comma; `""` yields `[""]`,
adjacent commas yield empty fields. -/
def splitComma : List Char → List (List Char)
  | [] => [[]]
  | c :: cs =>
    if c = ',' then [] :: splitComma cs
    else
      match splitComma cs with
      | w :: ws => (c :: w) :: ws
      | [] => [[c]]

/-- Python `s.strip()`: removes leading and trailing whitespace. -/
def stripWs (s : List Char) : List Char :=
  (((s.dropWhile Char.isWhitespace).reverse).dropWhile Char.isWhitespace).reverse

/-- Lines 26-27 of `create_repo.py`: read `BRANCH_NAMES` (default `"dev,qa"`),
split on commas, strip each entry, drop entries that strip to the empty
string.  `cfg = none` models an unset environment variable. -/
def parseBranchNames (cfg : Option String) : List String :=
  ((splitComma (cfg.getD "dev,qa").toList).map (fun w => String.mk (stripWs w))).filter
    (fun b => b ≠ "")

/-! ## Branch seeding (`create_branches`, lines 43-54)

For each parsed name the script issues `create_git_ref`; a 422 response
(ref already exists) is reported non-fatally, any other error likewise only
logged.  The GitHub side is modelled by the list of refs that exist, updated
as refs are created, so that a duplicate name in the request list conflicts
with the ref created moments earlier. -/

inductive BranchOutcome where
  | created
  | refExists
deriving DecidableEq, Repr

/-- The per-name `create_git_ref` loop of `create_branches`: `existing` is the
set of refs currently present on the platform; a name already present gets the
422 "already exists" outcome, otherwise the ref is created (and is present for
the remaining iterations).  Returns the per-name outcomes in order together
with the final ref set. -/
def seedBranches (existing : List String) : List String → List (String × BranchOutcome) × List String
  | [] => ([], existing)
  | b :: bs =>
    if b ∈ existing then
      let rest := seedBranches existing bs
      ((b, BranchOutcome.refExists) :: rest.1, rest.2)
    else
      let rest := seedBranches (b :: existing) bs
      ((b, BranchOutcome.created) :: rest.1, rest.2)

/-! ## Access teams (`create_teams_and_add_members`, lines 62-114)

The script builds a fixed two-team configuration (`l1` with the first user
only, `l2` with all users), and for each team: looks up or creates the team,
grants it push access on the repository (`add_to_repos` +
`set_repo_permission`), then adds each member inside a per-member
`try/except`.  The whole team body sits in an outer `try/except`, so a
failure while ensuring the team or granting access skips that team's
member additions but never raises out of the function. -/

/-- Lines 74-77: `teams_config`.  The first-responder team `l1` holds only
the first configured user, the full team `l2` holds all of them. -/
def teamsConfig (users : List String) : List (String × List String) :=
  [("l1", match users with | [] => [] | u :: _ => [u]), ("l2", users)]

/-- Platform responses for the team step: whether looking up / creating the
team succeeds, whether the repository grant succeeds, and whether each
`add_membership` call succeeds. -/
structure TeamsEnv where
  ensureOk : String → Bool
  grantOk : String → Bool
  memberOk : String → String → Bool

inductive TEvent where
  | ensureTeam (t : String)
  | grantPush (t : String)
  | addMember (t : String) (u : String) (ok : Bool)
  | teamFailed (t : String)
deriving DecidableEq, Repr

/-- The body of the per-team loop (lines 79-114): ensure the team, grant it
push access, then attempt every member addition (each failure caught by the
inner `except` and only recorded).  An error before the member loop aborts
only this team's block. -/
def teamEvents (env : TeamsEnv) (t : String) (members : List String) : List TEvent :=
  if env.ensureOk t then
    if env.grantOk t then
      TEvent.ensureTeam t :: TEvent.grantPush t ::
        members.map (fun u => TEvent.addMember t u (env.memberOk t u))
    else [TEvent.ensureTeam t, TEvent.teamFailed t]
  else [TEvent.teamFailed t]

/-- `create_teams_and_add_members`: returns early when no users are
configured (line 68), else processes the two configured teams in order. -/
def createTeamsTrace (env : TeamsEnv) (users : List String) : List TEvent :=
  if users = [] then []
  else (teamsConfig users).flatMap (fun tc => teamEvents env tc.1 tc.2)

/-- The `(team, user)` pairs for which an `add_membership` call was issued in
a trace, in order. -/
def attemptedAdds (tr : List TEvent) : List (String × String) :=
  tr.filterMap (fun e =>
    match e with
    | TEvent.addMember t u _ => some (t, u)
    | _ => none)

/-- The teams for which the lookup-or-create step ran in a trace, in order. -/
def ensuredTeams (tr : List TEvent) : List String :=
  tr.filterMap (fun e =>
    match e with
    | TEvent.ensureTeam t => some t
    | _ => none)

/-! ## File upsert (`add_codeowners` lines 134-153, `add_ci_workflow` lines 196-213)

Both functions use the same read-before-write pattern:
`get_contents` inside a `try`; on success `update_file` carrying the returned
sha; on `GithubException` — any `GithubException`, the handler does not
inspect the status code — `create_file`. -/

/-- Result of the `get_contents` read: the file was found (with its blob sha),
the platform returned a 404 not-found error, or it returned some other error
(rate limit, permission, server error). -/
inductive ReadResult where
  | found (sha : String)
  | notFound
  | otherErr
deriving DecidableEq, Repr

inductive WriteCall where
  | update (sha : String)
  | create
deriving DecidableEq, Repr

/-- The write call the script issues after the read: `update_file` with the
sha when the read succeeded, `create_file` whenever the read raised — the
`except GithubException:` handler (lines 145, 206) catches every platform
error, not only not-found. -/
def upsertCall : ReadResult → WriteCall
  | ReadResult.found sha => WriteCall.update sha
  | ReadResult.notFound => WriteCall.create
  | ReadResult.otherErr => WriteCall.create

/-- Modelled from the spec words for comparison with `upsertCall`: "if found,
issues an update call carrying that hash ...; if a not-found error is
returned instead, issues a create call.  Any other read or write error is
FileSyncFailed" — i.e. on `otherErr` no write call is issued (`none`). -/
def upsertCallSpec : ReadResult → Option WriteCall
  | ReadResult.found sha => some (WriteCall.update sha)
  | ReadResult.notFound => some WriteCall.create
  | ReadResult.otherErr => none

/-! ## CI workflow content and propagation (`add_ci_workflow`, lines 159-245)

The function writes a fixed workflow string to
`.github/workflows/build.yml` on the default branch (update-or-create), then
for each branch in the literal list `['dev', 'qa']`: `get_branch` (skipping
the branch with a per-branch log when it does not exist), re-reads the file
from the default branch, and writes the re-read content to the target branch
(update-or-create).  The repository is modelled as the set of existing
branches plus an association list from branch name to the content of the
workflow file on that branch. -/

/-- Lines 165-189: the literal `workflow_content` string. -/
def workflow_content : String :=
  "name: build\n\non:\n  push:\n    branches: [\x27**\x27]\n  pull_request:\n    branches: [\x27**\x27]\n\njobs:\n  build:\n    runs-on: ubuntu-latest\n    steps:\n      - name: Checkout code\n        uses: actions/checkout@v4\n      \n      - name: Run build\n        run: |\n          echo \"🔨 Build started\"\n          echo \"Running tests...\"\n          # Add your actual build/test commands here\n          echo \" Build completed successfully\"\n      \n      - name: Build status\n        run: echo \"Build passed for commit $\x7b\x7b github.sha \x7d\x7d\"\n"

/-- The repository as `add_ci_workflow` sees it: its default branch, the set
of branches that exist, and for each branch the current content of
`.github/workflows/build.yml` (absent key = file absent on that branch). -/
structure RepoState where
  defaultBranch : String
  branches : List String
  wfFiles : List (String × String)
deriving DecidableEq, Repr

/-- Content of the workflow file on branch `b` (the `get_contents` read). -/
def getWf (s : RepoState) (b : String) : Option String :=
  (s.wfFiles.find? (fun p => p.1 = b)).map (fun p => p.2)

/-- Effect of `update_file`/`create_file` of content `c` on branch `b`:
either call leaves the file on `b` holding exactly `c`. -/
def setWf (s : RepoState) (b : String) (c : String) : RepoState :=
  { s with wfFiles := (b, c) :: s.wfFiles.filter (fun p => ¬ p.1 = b) }

/-- One iteration of the sync loop (lines 217-242) for branch `b`:
`get_branch` fails when `b` does not exist (per-branch skip); otherwise the
file is re-read from the default branch and its content written verbatim to
`b` (update-or-create).  If the default-branch read fails the iteration's
exception handler also just skips this branch. -/
def syncBranch (st : RepoState) (b : String) : RepoState :=
  if b ∈ st.branches then
    match getWf st st.defaultBranch with
    | some c => setWf st b c
    | none => st
  else st

/-- `add_ci_workflow`: write `workflow_content` to the default branch, then
sync the re-read default-branch content to the literal branch list
`['dev', 'qa']` — not to the configured `BRANCH_NAMES` list. -/
def addCiWorkflow (s : RepoState) : RepoState :=
  syncBranch (syncBranch (setWf s s.defaultBranch workflow_content) "dev") "qa"

/-- The literal list of sync targets at line 217. -/
def ciSyncTargets : List String := ["dev", "qa"]

/-! ## Branch protection (`enable_branch_protection`, lines 248-276)

A literal three-entry policy table; for each entry, `get_branch` then
`edit_protection`, a 404 recorded as branch-not-found and any failure only
logged, the loop always continuing to the next entry. -/

structure Prot where
  branch : String
  review_count : Nat
  code_owner : Bool
deriving DecidableEq, Repr

/-- Lines 254-258: the literal `protections` table. -/
def protections : List Prot :=
  [⟨"dev", 1, true⟩, ⟨"qa", 1, true⟩, ⟨"main", 2, true⟩]

inductive PEvent where
  | lookup (b : String) (foundIt : Bool)
  | protect (b : String) (reviews : Nat)
deriving DecidableEq, Repr

inductive POutcome where
  | applied
  | branchNotFound
deriving DecidableEq, Repr

/-- One iteration of the protection loop for entry `p` against the set `ex`
of existing branches: the `get_branch` lookup, then — only when the branch
was found — the `edit_protection` call with the entry's review count. -/
def protStep (ex : List String) (p : Prot) : List PEvent × (String × POutcome) :=
  if p.branch ∈ ex then
    ([PEvent.lookup p.branch true, PEvent.protect p.branch p.review_count],
      (p.branch, POutcome.applied))
  else
    ([PEvent.lookup p.branch false], (p.branch, POutcome.branchNotFound))

/-- The API-call trace of `enable_branch_protection` over a policy table. -/
def protTrace (ex : List String) (ps : List Prot) : List PEvent :=
  ps.flatMap (fun p => (protStep ex p).1)

/-- The per-branch outcomes of `enable_branch_protection` over a policy
table; one entry per table row because the loop never aborts early. -/
def protOutcomes (ex : List String) (ps : List Prot) : List (String × POutcome) :=
  ps.map (fun p => (protStep ex p).2)

/-! ## The orchestrator (`main`, lines 279-365)

Owner resolution (organization first, then user with an identity check),
a best-effort existence pre-check over `target.get_repos()`, then repository
creation followed by the fixed step sequence.  Mutating steps are recorded as
`Step` values; the run result mirrors the early `return`s of `main`. -/

structure MainEnv where
  repoName : String
  users : List String
  orgOk : Bool
  userOk : Bool
  ownerLogin : String
  authLogin : String
  reposList : Option (List String)
  createOk : Bool

inductive Step where
  | createRepo
  | createBranches
  | createTeams
  | addCodeowners
  | ciWorkflow
  | protection
deriving DecidableEq, Repr

inductive MainResult where
  | authMismatch
  | ownerNotFound
  | alreadyExists
  | createFailed
  | completed
deriving DecidableEq, Repr

/-- Lines 342-360: the step sequence executed after a successful
`create_repo` — branch seeding always; teams only for organizations with a
non-empty user list (line 348); CODEOWNERS for organizations; the CI
workflow and branch protection unconditionally. -/
def postCreateSteps (isOrg : Bool) (users : List String) : List Step :=
  [Step.createRepo, Step.createBranches] ++
    (if isOrg then
      (if users = [] then [] else [Step.createTeams]) ++ [Step.addCodeowners]
    else []) ++
    [Step.ciWorkflow, Step.protection]

/-- Lines 319-365: the existence pre-check (a listing failure is only logged
and the run falls through to creation), then `create_repo` — fatal on
failure, otherwise followed by `postCreateSteps`. -/
def provisionRepo (env : MainEnv) (isOrg : Bool) : MainResult × List Step :=
  let proceed :=
    if env.createOk then (MainResult.completed, postCreateSteps isOrg env.users)
    else (MainResult.createFailed, [Step.createRepo])
  match env.reposList with
  | some repos =>
    if env.repoName ∈ repos then (MainResult.alreadyExists, []) else proceed
  | none => proceed

/-- Lines 294-365 of `main` after configuration validation: organization
lookup first; on failure, user lookup with the line-310 identity check that
returns before any mutation when the owner is a different user; on both
lookups failing, a fatal owner error.  The returned list contains every
mutating step the run performed or attempted, in order. -/
def mainRun (env : MainEnv) : MainResult × List Step :=
  if env.orgOk then provisionRepo env true
  else if env.userOk then
    if env.ownerLogin = env.authLogin then provisionRepo env false
    else (MainResult.authMismatch, [])
  else (MainResult.ownerNotFound, [])

/-! ## Write-failure behaviour of `add_ci_workflow` (lines 191-245)

Fault-injectable model of the step's write paths.  The write to the default
branch (lines 196-213) sits directly inside the function-level `try` whose
handler is at line 244: if the final write call there raises (`update_file`
raising is caught at line 206 and falls back to `create_file`; `create_file`
raising escapes), the whole function exits and the `['dev', 'qa']` loop
never runs.  Inside the loop each iteration has its own handler (line 241):
an `update_file` failure on the target branch falls back to `create_file`
(the inner `try` at lines 224-233 wraps both the read and the update), and a
failure of that final write is caught per branch, the loop continuing with
the next target. -/

/-- Platform responses for the workflow step's write paths:
whether the final write on the default branch succeeds, which sync targets
exist, and whether the final write on each target branch succeeds. -/
structure CiEnv where
  defaultWriteOk : Bool
  branchExists : String → Bool
  syncWriteOk : String → Bool

inductive CiEvent where
  | writeDefault (ok : Bool)
  | syncWrite (b : String) (ok : Bool)
deriving DecidableEq, Repr

inductive CiSyncOutcome where
  | synced
  | skippedMissing
  | syncFailed
deriving DecidableEq, Repr

/-- Outcome of one sync-loop iteration for branch `b`: skipped when
`get_branch` fails, failed when the branch's final write raises (caught by
the line-241 per-branch handler), synced otherwise. -/
def ciSyncOutcomeOf (env : CiEnv) (b : String) : CiSyncOutcome :=
  if env.branchExists b then
    if env.syncWriteOk b then CiSyncOutcome.synced else CiSyncOutcome.syncFailed
  else CiSyncOutcome.skippedMissing

/-- Write calls issued by one sync-loop iteration for branch `b`. -/
def ciSyncEventsOf (env : CiEnv) (b : String) : List CiEvent :=
  if env.branchExists b then [CiEvent.syncWrite b (env.syncWriteOk b)] else []

/-- `add_ci_workflow`'s write calls and per-pair outcomes: when the
default-branch write raises, the exception escapes to the line-244 handler
and no sync pair is processed; otherwise every target in `['dev', 'qa']`
gets its own outcome, per-branch failures caught locally. -/
def addCiWorkflowRun (env : CiEnv) : List CiEvent × List (String × CiSyncOutcome) :=
  if env.defaultWriteOk then
    (CiEvent.writeDefault true :: ciSyncTargets.flatMap (ciSyncEventsOf env),
      ciSyncTargets.map (fun b => (b, ciSyncOutcomeOf env b)))
  else ([CiEvent.writeDefault false], [])

/-! ## Concrete environments used to exercise the model -/

/-- A run where the requested name is already among the owner's
repositories. -/
def envAlready : MainEnv :=
  { repoName := "demo", users := [], orgOk := true, userOk := false,
    ownerLogin := "octo", authLogin := "octo",
    reposList := some ["demo"], createOk := true }

/-- A run where the owner resolves to an individual account that is not the
authenticated caller. -/
def envMismatch : MainEnv :=
  { repoName := "demo", users := [], orgOk := false, userOk := true,
    ownerLogin := "alice", authLogin := "bob",
    reposList := some [], createOk := true }

/-- A run where listing the owner's repositories fails with a platform
error. -/
def envListFail : MainEnv :=
  { repoName := "demo", users := ["alice"], orgOk := true, userOk := false,
    ownerLogin := "octo", authLogin := "octo",
    reposList := none, createOk := true }

/-- An organization run that creates the repository and proceeds through
every step. -/
def envFull : MainEnv :=
  { repoName := "demo", users := ["alice", "bob"], orgOk := true,
    userOk := false, ownerLogin := "octo", authLogin := "octo",
    reposList := some ["other"], createOk := true }

/-- A freshly created repository seeded with a branch outside the fixed
`dev`/`qa` sync list. -/
def repoDemo : RepoState :=
  { defaultBranch := "main", branches := ["main", "dev", "qa", "feature"],
    wfFiles := [] }

/-- A team-step environment where every platform call succeeds. -/
def teamsEnvAllOk : TeamsEnv :=
  { ensureOk := fun _ => true, grantOk := fun _ => true,
    memberOk := fun _ _ => true }

/-- A team-step environment where adding the member `bob` fails and every
other call succeeds. -/
def teamsEnvBobFails : TeamsEnv :=
  { ensureOk := fun _ => true, grantOk := fun _ => true,
    memberOk := fun _ u => !(u == "bob") }

/-- A workflow-step environment where the default-branch write fails and
everything else would succeed. -/
def ciEnvDefaultFail : CiEnv :=
  { defaultWriteOk := false, branchExists := fun _ => true,
    syncWriteOk := fun _ => true }

/-- A workflow-step environment where only the write on `qa` fails. -/
def ciEnvQaFails : CiEnv :=
  { defaultWriteOk := true, branchExists := fun _ => true,
    syncWriteOk := fun b => !(b == "qa") }

/-! ## Helper lemmas -/

/-- `seedBranches` records one outcome per requested name, in request
order: the loop never drops or merges entries. -/
theorem seedBranches_fst (l : List String) : ∀ ex : List String,
    ((seedBranches ex l).1.map Prod.fst) = l := by
  induction l with
  | nil => intro ex; rfl
  | cons b bs ih =>
    intro ex
    by_cases hb : b ∈ ex <;> simp [seedBranches, hb, ih]

/-- Every name surviving the comprehension filter is non-blank. -/
theorem parseBranchNames_ne_blank (cfg : Option String) (b : String)
    (h : b ∈ parseBranchNames cfg) : b ≠ "" := by
  have := List.mem_filter.mp h
  simpa using this.2

/-! Simple claims about the orchestrator. -/

/-- C10: with no `BRANCH_NAMES` configured, the seeded branch list is
exactly `dev, qa`; the default branch name `main` is not among them. -/
theorem claim10_default_branch_names :
    parseBranchNames none = ["dev", "qa"] ∧ "main" ∉ parseBranchNames none := by
  decide

/-- C6 counterexample: the configured list `"dev, dev"` parses to two
occurrences of `dev` — duplicates are not removed — and the seeding loop
attempts the name twice, the second attempt hitting the 422 conflict. -/
theorem claim6_counterexample :
    parseBranchNames (some "dev, dev") = ["dev", "dev"] ∧
    ¬ (parseBranchNames (some "dev, dev")).Nodup ∧
    (seedBranches ["main"] (parseBranchNames (some "dev, dev"))).1 =
      [("dev", BranchOutcome.created), ("dev", BranchOutcome.refExists)] := by
  decide

/-- C6 (amended): blank entries are removed from the configured list before
any ref creation, but duplicates are retained: the seeder attempts each
occurrence of each name, in configured order, one ref-creation call per
occurrence. -/
theorem claim6_blanks_removed_duplicates_kept (cfg : Option String)
    (ex : List String) :
    (∀ b ∈ parseBranchNames cfg, b ≠ "") ∧
    ((seedBranches ex (parseBranchNames cfg)).1.map Prod.fst =
      parseBranchNames cfg) :=
  ⟨fun b hb => parseBranchNames_ne_blank cfg b hb,
    seedBranches_fst (parseBranchNames cfg) ex⟩

/-- C6 witness: concrete run of the amended statement. -/
theorem claim6_witness :
    ("dev" ≠ "") ∧
    ((seedBranches ["main"] (parseBranchNames (some "dev,,qa"))).1.map
      Prod.fst = parseBranchNames (some "dev,,qa")) :=
  ⟨(claim6_blanks_removed_duplicates_kept (some "dev,,qa") ["main"]).1 "dev"
      (by decide),
    (claim6_blanks_removed_duplicates_kept (some "dev,,qa") ["main"]).2⟩

/-- C5 counterexample: two parts of the claim fail on the code.  A read
error other than not-found still leads to a `create_file` call, although the
claim mandates FileSyncFailed with no write there; and an error is not
always confined to its own (path, branch) pair: when the default-branch
write fails, the dev and qa pairs are not processed at all — no outcome and
no write call for them, rather than failures local to the default pair. -/
theorem claim5_counterexample :
    upsertCall ReadResult.otherErr = WriteCall.create ∧
    upsertCallSpec ReadResult.otherErr = none ∧
    some (upsertCall ReadResult.otherErr) ≠ upsertCallSpec ReadResult.otherErr ∧
    (addCiWorkflowRun ciEnvDefaultFail).2 = [] ∧
    CiEvent.syncWrite "dev" true ∉ (addCiWorkflowRun ciEnvDefaultFail).1 := by
  decide

/-- C5 (amended): the upsert issues an update carrying the read sha exactly
when the read found the file, and issues a create whenever the read raised
any error — not-found or otherwise.  A write failure on a sync-target
branch is recorded for that pair only, every target still receiving its own
outcome, but a write failure on the default-branch write aborts the whole
workflow step and no sync pair is processed. -/
theorem claim5_upsert_call_selection :
    (∀ r : ReadResult,
      (∀ sha, upsertCall r = WriteCall.update sha ↔ r = ReadResult.found sha) ∧
      (upsertCall r = WriteCall.create ↔ ∀ sha, r ≠ ReadResult.found sha)) ∧
    (∀ env : CiEnv, env.defaultWriteOk = true →
      (addCiWorkflowRun env).2.map Prod.fst = ciSyncTargets) ∧
    (∀ (env : CiEnv) (b : String), env.defaultWriteOk = true →
      b ∈ ciSyncTargets → env.branchExists b = true →
      env.syncWriteOk b = false →
      (b, CiSyncOutcome.syncFailed) ∈ (addCiWorkflowRun env).2) ∧
    (∀ env : CiEnv, env.defaultWriteOk = false →
      (addCiWorkflowRun env).2 = []) := by
  refine ⟨?_, ?_, ?_, ?_⟩
  · intro r
    cases r <;> simp [upsertCall]
  · intro env h
    simp [addCiWorkflowRun, h, ciSyncTargets]
  · intro env b h hb hex hw
    simp only [addCiWorkflowRun, h, if_true, List.mem_map]
    exact ⟨b, hb, by simp [ciSyncOutcomeOf, hex, hw]⟩
  · intro env h
    simp [addCiWorkflowRun, h]

/-- C5 witness: concrete runs of the amended statement — a found read
yields an update carrying the sha; with only the `qa` write failing both
pairs are still processed and `qa` records its own failure; with the
default-branch write failing no pair is processed. -/
theorem claim5_witness :
    upsertCall (ReadResult.found "abc") = WriteCall.update "abc" ∧
    (addCiWorkflowRun ciEnvQaFails).2.map Prod.fst = ciSyncTargets ∧
    ("qa", CiSyncOutcome.syncFailed) ∈ (addCiWorkflowRun ciEnvQaFails).2 ∧
    (addCiWorkflowRun ciEnvDefaultFail).2 = [] :=
  ⟨((claim5_upsert_call_selection.1 (ReadResult.found "abc")).1 "abc").mpr rfl,
    claim5_upsert_call_selection.2.1 ciEnvQaFails rfl,
    claim5_upsert_call_selection.2.2.1 ciEnvQaFails "qa" rfl (by decide) rfl
      (by decide),
    claim5_upsert_call_selection.2.2.2 ciEnvDefaultFail rfl⟩

/-- When the existence listing fails, `provisionRepo` still attempts the
`create_repo` call. -/
theorem provisionRepo_listFail_attempts_create (env : MainEnv) (isOrg : Bool)
    (h : env.reposList = none) :
    Step.createRepo ∈ (provisionRepo env isOrg).2 := by
  by_cases hc : env.createOk <;>
    simp [provisionRepo, h, hc, postCreateSteps]

/-- When the name is already listed, `provisionRepo` returns immediately
with no step run. -/
theorem provisionRepo_already (env : MainEnv) (isOrg : Bool)
    (rs : List String) (h : env.reposList = some rs)
    (hmem : env.repoName ∈ rs) :
    provisionRepo env isOrg = (MainResult.alreadyExists, []) := by
  simp [provisionRepo, h, hmem]

/-- C1 counterexample: with the requested name already under the owner, the
run stops at the existence check — the result is the already-exists early
return and the step list is empty, so branch seeding, access groups, file
upserts and protection never run against the existing repository. -/
theorem claim1_counterexample :
    mainRun envAlready = (MainResult.alreadyExists, []) ∧
    Step.createBranches ∉ (mainRun envAlready).2 ∧
    Step.protection ∉ (mainRun envAlready).2 := by
  decide

/-- C1 (amended): when the desired repository name is already present under
the resolved owner, `main` reports it as already existing and returns
immediately — treated as a terminal condition, not a non-fatal success: no
subsequent step runs against the existing repository. -/
theorem claim1_already_exists_halts (env : MainEnv) (rs : List String)
    (hres : env.orgOk = true ∨
      (env.userOk = true ∧ env.ownerLogin = env.authLogin))
    (hlist : env.reposList = some rs) (hmem : env.repoName ∈ rs) :
    mainRun env = (MainResult.alreadyExists, []) := by
  rcases hres with ho | ⟨hu, heq⟩
  · simp [mainRun, ho, provisionRepo_already env true rs hlist hmem]
  · by_cases ho : env.orgOk <;>
      simp [mainRun, ho, hu, heq,
        provisionRepo_already env true rs hlist hmem,
        provisionRepo_already env false rs hlist hmem]

/-- C1 witness: the amended statement at the concrete environment. -/
theorem claim1_witness : mainRun envAlready = (MainResult.alreadyExists, []) :=
  claim1_already_exists_halts envAlready ["demo"] (Or.inl rfl) rfl (by decide)

/-- C3: when the organization lookup fails and the owner resolves to an
individual account whose login differs from the authenticated caller's,
`main` returns the authorization-mismatch result with an empty step list —
it terminates before issuing any mutating call. -/
theorem claim3_authorization_mismatch_no_mutation (env : MainEnv)
    (horg : env.orgOk = false) (huser : env.userOk = true)
    (hneq : env.ownerLogin ≠ env.authLogin) :
    mainRun env = (MainResult.authMismatch, []) := by
  simp [mainRun, horg, huser, hneq]

/-- C3 witness: the theorem at the concrete mismatching environment. -/
theorem claim3_witness : mainRun envMismatch = (MainResult.authMismatch, []) :=
  claim3_authorization_mismatch_no_mutation envMismatch rfl rfl (by decide)

/-- C9: if listing the owner's existing repositories fails, the failure is
only logged and the run falls through to attempt `create_repo` anyway — the
existence pre-check is best-effort, not a gate. -/
theorem claim9_listing_failure_best_effort (env : MainEnv)
    (hres : env.orgOk = true ∨
      (env.userOk = true ∧ env.ownerLogin = env.authLogin))
    (hlist : env.reposList = none) :
    Step.createRepo ∈ (mainRun env).2 := by
  rcases hres with ho | ⟨hu, heq⟩
  · simpa [mainRun, ho] using
      provisionRepo_listFail_attempts_create env true hlist
  · by_cases ho : env.orgOk
    · simpa [mainRun, ho] using
        provisionRepo_listFail_attempts_create env true hlist
    · simpa [mainRun, ho, hu, heq] using
        provisionRepo_listFail_attempts_create env false hlist

/-- C9 witness: the theorem at the concrete environment whose repository
listing fails. -/
theorem claim9_witness : Step.createRepo ∈ (mainRun envListFail).2 :=
  claim9_listing_failure_best_effort envListFail (Or.inl rfl) rfl

/-! ## Lemmas about the workflow-file store -/

/-- Dropping the association-list entries for key `b` does not change the
lookup of a different key (stated over the fused filter-find predicate). -/
theorem find_filter_ne (b bq : String) (h : bq ≠ b)
    (l : List (String × String)) :
    l.find? (fun a => !decide (a.1 = b) && decide (a.1 = bq)) =
      l.find? (fun p => decide (p.1 = bq)) := by
  induction l with
  | nil => rfl
  | cons hd tl ih =>
    by_cases hq : hd.1 = bq
    · have hb : ¬ hd.1 = b := by
        intro hbb
        apply h
        rw [← hq]
        exact hbb
      simp [List.find?_cons, hq, hb, h]
    · simp [List.find?_cons, hq, ih]

/-- Lookup after a write: the written branch holds the new content, every
other branch is untouched. -/
theorem getWf_setWf (s : RepoState) (b c bq : String) :
    getWf (setWf s b c) bq = if bq = b then some c else getWf s bq := by
  by_cases h : bq = b
  · simp [getWf, setWf, List.find?_cons, h]
  · simp [getWf, setWf, List.find?_cons, Ne.symm h, h,
      find_filter_ne b bq h s.wfFiles]

/-- Writes do not change the branch set. -/
theorem branches_setWf (s : RepoState) (b c : String) :
    (setWf s b c).branches = s.branches := rfl

/-- Writes do not change the default branch. -/
theorem defaultBranch_setWf (s : RepoState) (b c : String) :
    (setWf s b c).defaultBranch = s.defaultBranch := rfl

/-- A sync iteration does not change the branch set. -/
theorem branches_syncBranch (st : RepoState) (b : String) :
    (syncBranch st b).branches = st.branches := by
  by_cases h : b ∈ st.branches
  · cases hg : getWf st st.defaultBranch <;> simp [syncBranch, h, hg, setWf]
  · simp [syncBranch, h]

/-- A sync iteration does not change the default branch. -/
theorem defaultBranch_syncBranch (st : RepoState) (b : String) :
    (syncBranch st b).defaultBranch = st.defaultBranch := by
  by_cases h : b ∈ st.branches
  · cases hg : getWf st st.defaultBranch <;> simp [syncBranch, h, hg, setWf]
  · simp [syncBranch, h]

/-- A sync iteration preserves the default branch's workflow content. -/
theorem getWf_default_syncBranch (st : RepoState) (b : String) (w : String)
    (h : getWf st st.defaultBranch = some w) :
    getWf (syncBranch st b) (syncBranch st b).defaultBranch = some w := by
  rw [defaultBranch_syncBranch]
  by_cases hb : b ∈ st.branches
  · simp only [syncBranch, hb, if_true, h]
    rw [getWf_setWf]
    by_cases hd : st.defaultBranch = b <;> simp [hd, h]
  · simp [syncBranch, hb, h]

/-- Syncing branch `b` copies the default branch's content onto `b`. -/
theorem getWf_target_syncBranch (st : RepoState) (b : String) (w : String)
    (h : getWf st st.defaultBranch = some w) (hb : b ∈ st.branches) :
    getWf (syncBranch st b) b = some w := by
  simp only [syncBranch, hb, if_true, h]
  rw [getWf_setWf]
  simp

/-- A later sync iteration cannot disturb a branch that already carries the
default branch's content. -/
theorem getWf_other_syncBranch (st : RepoState) (b bq : String) (w : String)
    (hq : getWf st bq = some w) (h : getWf st st.defaultBranch = some w) :
    getWf (syncBranch st b) bq = some w := by
  by_cases hb : b ∈ st.branches
  · simp only [syncBranch, hb, if_true, h]
    rw [getWf_setWf]
    by_cases hqb : bq = b <;> simp [hqb, hq]
  · simp [syncBranch, hb, hq]

set_option maxRecDepth 8192 in
/-- C2 counterexample: with `BRANCH_NAMES = "dev,qa,feature"` the branch
`feature` is a configured seeded branch and exists, yet `add_ci_workflow`
leaves it without the workflow file: the sync loop iterates over the literal
list `['dev', 'qa']`, not over the configured seeded branches, so the file on
`feature` is not byte-identical to the default branch's. -/
theorem claim2_counterexample :
    "feature" ∈ parseBranchNames (some "dev,qa,feature") ∧
    "feature" ∈ repoDemo.branches ∧
    getWf (addCiWorkflow repoDemo) "feature" = none ∧
    getWf (addCiWorkflow repoDemo) "main" = some workflow_content ∧
    getWf (addCiWorkflow repoDemo) "feature" ≠
      getWf (addCiWorkflow repoDemo) "main" := by
  decide

/-- C2 (amended): the CI workflow file is first written to the default
branch, its content read back from there, and propagated verbatim to each of
the fixed branches `dev` and `qa` that exists — those branches end up
byte-identical to the default branch; seeded branches outside that fixed
pair are not synced. -/
theorem claim2_fixed_sync_byte_identical (s : RepoState) (b : String)
    (hb : b ∈ ciSyncTargets) (hex : b ∈ s.branches) :
    getWf (addCiWorkflow s) b = some workflow_content ∧
    getWf (addCiWorkflow s) ((addCiWorkflow s).defaultBranch) =
      some workflow_content := by
  have h1 : getWf (setWf s s.defaultBranch workflow_content)
      (setWf s s.defaultBranch workflow_content).defaultBranch =
        some workflow_content := by
    rw [defaultBranch_setWf, getWf_setWf]
    simp
  have h2 := getWf_default_syncBranch _ "dev" _ h1
  have h3 := getWf_default_syncBranch _ "qa" _ h2
  constructor
  · have hbs1 : b ∈ (setWf s s.defaultBranch workflow_content).branches := by
      rw [branches_setWf]
      exact hex
    have hb2 : b = "dev" ∨ b = "qa" := by simpa [ciSyncTargets] using hb
    rcases hb2 with hdev | hqa
    · subst hdev
      have hA := getWf_target_syncBranch _ "dev" _ h1 hbs1
      have hB := getWf_other_syncBranch _ "qa" "dev" _ hA h2
      exact hB
    · subst hqa
      have hbs2 : "qa" ∈
          (syncBranch (setWf s s.defaultBranch workflow_content)
            "dev").branches := by
        rw [branches_syncBranch, branches_setWf]
        exact hex
      have hA := getWf_target_syncBranch _ "qa" _ h2 hbs2
      exact hA
  · exact h3

/-- C2 witness: the amended statement on a concrete repository where both
fixed targets exist. -/
theorem claim2_witness :
    getWf (addCiWorkflow repoDemo) "dev" = some workflow_content ∧
    getWf (addCiWorkflow repoDemo) ((addCiWorkflow repoDemo).defaultBranch) =
      some workflow_content :=
  claim2_fixed_sync_byte_identical repoDemo "dev" (by decide) (by decide)

/-! ## Lemmas about the protection loop -/

/-- Every `edit_protection` call in the trace is immediately preceded by the
`get_branch` lookup that observed the branch existing. -/
theorem protect_lookup_sublist (ex : List String) (ps : List Prot)
    (b : String) (n : Nat) (h : PEvent.protect b n ∈ protTrace ex ps) :
    List.Sublist [PEvent.lookup b true, PEvent.protect b n]
      (protTrace ex ps) := by
  induction ps with
  | nil => simp [protTrace] at h
  | cons p ps ih =>
    have hsplit : protTrace ex (p :: ps) =
        (protStep ex p).1 ++ protTrace ex ps := by
      simp [protTrace]
    rw [hsplit] at h
    rw [hsplit]
    rcases List.mem_append.mp h with hblk | hrest
    · by_cases hp : p.branch ∈ ex
      · simp only [protStep, hp, if_true, List.mem_cons,
          List.not_mem_nil, or_false] at hblk
        rcases hblk with hlk | hpr
        · exact absurd hlk (by simp)
        · have hb : b = p.branch := by
            cases hpr
            rfl
          have hn : n = p.review_count := by
            cases hpr
            rfl
          subst hb
          subst hn
          simp only [protStep, hp, if_true]
          exact List.sublist_append_left _ _
      · simp [protStep, hp] at hblk
    · exact (ih hrest).trans (List.sublist_append_right _ _)

/-- A table entry whose branch does not exist gets the branch-not-found
outcome. -/
theorem protOutcomes_notFound (ex : List String) (ps : List Prot) (p : Prot)
    (hp : p ∈ ps) (hex : p.branch ∉ ex) :
    (p.branch, POutcome.branchNotFound) ∈ protOutcomes ex ps := by
  simp only [protOutcomes, List.mem_map]
  exact ⟨p, hp, by simp [protStep, hex]⟩

/-- The loop records an outcome for every table entry: it never aborts
early. -/
theorem protOutcomes_length (ex : List String) (ps : List Prot) :
    (protOutcomes ex ps).length = ps.length := by
  simp [protOutcomes]

/-- C4: protection is applied to a branch only after the lookup observed it
existing (the protect event is always preceded in the trace by a successful
lookup of the same branch); entries whose branch is absent get the
branch-not-found outcome; and all entries of the table are processed. -/
theorem claim4_protection_after_lookup (ex : List String) :
    (∀ b n, PEvent.protect b n ∈ protTrace ex protections →
      List.Sublist [PEvent.lookup b true, PEvent.protect b n]
        (protTrace ex protections)) ∧
    (∀ p ∈ protections, p.branch ∉ ex →
      (p.branch, POutcome.branchNotFound) ∈ protOutcomes ex protections) ∧
    (protOutcomes ex protections).length = protections.length :=
  ⟨fun b n h => protect_lookup_sublist ex protections b n h,
    fun p hp hex => protOutcomes_notFound ex protections p hp hex,
    protOutcomes_length ex protections⟩

/-- C4 witness: only `dev` exists; its protect call is preceded by its
lookup, while `qa` is recorded as not found. -/
theorem claim4_witness :
    List.Sublist [PEvent.lookup "dev" true, PEvent.protect "dev" 1]
      (protTrace ["dev"] protections) ∧
    ("qa", POutcome.branchNotFound) ∈ protOutcomes ["dev"] protections :=
  ⟨(claim4_protection_after_lookup ["dev"]).1 "dev" 1 (by decide),
    (claim4_protection_after_lookup ["dev"]).2.1 ⟨"qa", 1, true⟩ (by decide)
      (by decide)⟩

/-! ## Lemmas about the team step -/

/-- `attemptedAdds` distributes over trace concatenation. -/
theorem attemptedAdds_append (a b : List TEvent) :
    attemptedAdds (a ++ b) = attemptedAdds a ++ attemptedAdds b := by
  simp [attemptedAdds]

/-- `ensuredTeams` distributes over trace concatenation. -/
theorem ensuredTeams_append (a b : List TEvent) :
    ensuredTeams (a ++ b) = ensuredTeams a ++ ensuredTeams b := by
  simp [ensuredTeams]

/-- An ensure event contributes no attempted addition. -/
theorem attemptedAdds_cons_ensure (t : String) (tr : List TEvent) :
    attemptedAdds (TEvent.ensureTeam t :: tr) = attemptedAdds tr := by
  simp [attemptedAdds, List.filterMap_cons]

/-- A grant event contributes no attempted addition. -/
theorem attemptedAdds_cons_grant (t : String) (tr : List TEvent) :
    attemptedAdds (TEvent.grantPush t :: tr) = attemptedAdds tr := by
  simp [attemptedAdds, List.filterMap_cons]

/-- The member loop attempts exactly its member list, whatever the
per-member responses are. -/
theorem attemptedAdds_map_addMember (t : String) (f : String → Bool)
    (ms : List String) :
    attemptedAdds (ms.map (fun u => TEvent.addMember t u (f u))) =
      ms.map (fun u => (t, u)) := by
  induction ms with
  | nil => rfl
  | cons m ms ih =>
    simpa [attemptedAdds, List.filterMap_cons] using ih

/-- When the team is ensured and granted, exactly its member list is
attempted, in order. -/
theorem attempted_teamEvents_ok (env : TeamsEnv) (t : String)
    (ms : List String) (he : env.ensureOk t = true)
    (hg : env.grantOk t = true) :
    attemptedAdds (teamEvents env t ms) = ms.map (fun u => (t, u)) := by
  simp only [teamEvents, he, hg, if_true]
  rw [attemptedAdds_cons_ensure, attemptedAdds_cons_grant,
    attemptedAdds_map_addMember]

/-- Which member additions succeed has no influence on which member
additions are attempted. -/
theorem attempted_teamEvents_indep (e1 e2 : TeamsEnv) (t : String)
    (ms : List String) (he : e1.ensureOk = e2.ensureOk)
    (hg : e1.grantOk = e2.grantOk) :
    attemptedAdds (teamEvents e1 t ms) = attemptedAdds (teamEvents e2 t ms) := by
  have he2 : e2.ensureOk t = e1.ensureOk t := by rw [he]
  have hg2 : e2.grantOk t = e1.grantOk t := by rw [hg]
  cases h1 : e1.ensureOk t with
  | false => simp [teamEvents, attemptedAdds, h1, he2]
  | true =>
    cases h2 : e1.grantOk t with
    | false => simp [teamEvents, attemptedAdds, h1, h2, he2, hg2]
    | true =>
      simp only [teamEvents, h1, h2, he2, hg2, if_true]
      rw [attemptedAdds_cons_ensure, attemptedAdds_cons_grant,
        attemptedAdds_map_addMember, attemptedAdds_cons_ensure,
        attemptedAdds_cons_grant, attemptedAdds_map_addMember]

/-- An ensure event records its team in front of the rest. -/
theorem ensuredTeams_cons_ensure (t : String) (tr : List TEvent) :
    ensuredTeams (TEvent.ensureTeam t :: tr) = t :: ensuredTeams tr := by
  simp [ensuredTeams, List.filterMap_cons]

/-- A grant event records no ensured team. -/
theorem ensuredTeams_cons_grant (t : String) (tr : List TEvent) :
    ensuredTeams (TEvent.grantPush t :: tr) = ensuredTeams tr := by
  simp [ensuredTeams, List.filterMap_cons]

/-- A failure event records no ensured team. -/
theorem ensuredTeams_cons_failed (t : String) (tr : List TEvent) :
    ensuredTeams (TEvent.teamFailed t :: tr) = ensuredTeams tr := by
  simp [ensuredTeams, List.filterMap_cons]

/-- The member loop records no ensured team. -/
theorem ensuredTeams_map_addMember (t : String) (f : String → Bool)
    (ms : List String) :
    ensuredTeams (ms.map (fun u => TEvent.addMember t u (f u))) = [] := by
  induction ms with
  | nil => rfl
  | cons m ms ih =>
    simp [ensuredTeams, List.filterMap_cons]

/-- When the team is ensured, its lookup-or-create step appears exactly
once. -/
theorem ensured_teamEvents_ok (env : TeamsEnv) (t : String)
    (ms : List String) (he : env.ensureOk t = true) :
    ensuredTeams (teamEvents env t ms) = [t] := by
  cases hg : env.grantOk t with
  | false =>
    simp only [teamEvents, he, hg, if_true, Bool.false_eq_true, if_false]
    rw [ensuredTeams_cons_ensure, ensuredTeams_cons_failed]
    rfl
  | true =>
    simp only [teamEvents, he, hg, if_true]
    rw [ensuredTeams_cons_ensure, ensuredTeams_cons_grant,
      ensuredTeams_map_addMember]

/-- An attempted member addition pins down its team block: the team matches,
that team was ensured and granted, the user is in the team's member list and
the recorded outcome is the platform's response. -/
theorem addMember_mem_teamEvents (env : TeamsEnv) (t0 : String)
    (ms : List String) (t u : String) (b : Bool)
    (h : TEvent.addMember t u b ∈ teamEvents env t0 ms) :
    t = t0 ∧ env.ensureOk t0 = true ∧ env.grantOk t0 = true ∧ u ∈ ms ∧
      b = env.memberOk t0 u := by
  cases he : env.ensureOk t0 with
  | false => simp [teamEvents, he] at h
  | true =>
    cases hg : env.grantOk t0 with
    | false => simp [teamEvents, he, hg] at h
    | true =>
      simp only [teamEvents, he, hg, if_true, List.mem_cons,
        List.mem_map] at h
      rcases h with h1 | h2 | ⟨v, hv, heq⟩
      · exact absurd h1 (by simp)
      · exact absurd h2 (by simp)
      · cases heq
        exact ⟨rfl, rfl, rfl, hv, rfl⟩

/-- Within a team block the push grant precedes every member addition. -/
theorem grant_before_member (env : TeamsEnv) (t : String) (ms : List String)
    (u : String) (b : Bool) (he : env.ensureOk t = true)
    (hg : env.grantOk t = true) (hu : u ∈ ms)
    (hb : b = env.memberOk t u) :
    List.Sublist [TEvent.grantPush t, TEvent.addMember t u b]
      (teamEvents env t ms) := by
  subst hb
  simp only [teamEvents, he, hg, if_true]
  apply List.Sublist.cons
  apply List.Sublist.cons₂
  exact List.singleton_sublist.mpr
    (List.mem_map_of_mem (fun u => TEvent.addMember t u (env.memberOk t u)) hu)

/-- The trace of a non-empty run is the `l1` block followed by the `l2`
block. -/
theorem createTeamsTrace_cons (env : TeamsEnv) (u : String)
    (us : List String) :
    createTeamsTrace env (u :: us) =
      teamEvents env "l1" [u] ++ teamEvents env "l2" (u :: us) := by
  simp [createTeamsTrace, teamsConfig]

/-- C7: for a non-empty configured user list under an organization, exactly
the two teams `l1` and `l2` are ensured; `l1`'s membership additions cover
only the first configured user and `l2`'s cover all configured users; and
both teams receive the push grant on the repository. -/
theorem claim7_two_teams_membership_push (env : TeamsEnv) (u : String)
    (us : List String) (he1 : env.ensureOk "l1" = true)
    (he2 : env.ensureOk "l2" = true) (hg1 : env.grantOk "l1" = true)
    (hg2 : env.grantOk "l2" = true) :
    ensuredTeams (createTeamsTrace env (u :: us)) = ["l1", "l2"] ∧
    TEvent.grantPush "l1" ∈ createTeamsTrace env (u :: us) ∧
    TEvent.grantPush "l2" ∈ createTeamsTrace env (u :: us) ∧
    attemptedAdds (createTeamsTrace env (u :: us)) =
      ("l1", u) :: (u :: us).map (fun v => ("l2", v)) := by
  rw [createTeamsTrace_cons]
  refine ⟨?_, ?_, ?_, ?_⟩
  · rw [ensuredTeams_append, ensured_teamEvents_ok env "l1" [u] he1,
      ensured_teamEvents_ok env "l2" (u :: us) he2]
    rfl
  · simp [teamEvents, he1, hg1]
  · simp [teamEvents, he2, hg2]
  · rw [attemptedAdds_append, attempted_teamEvents_ok env "l1" [u] he1 hg1,
      attempted_teamEvents_ok env "l2" (u :: us) he2 hg2]
    rfl

/-- C7 witness: two users under an all-successful environment. -/
theorem claim7_witness :
    ensuredTeams (createTeamsTrace teamsEnvAllOk ["alice", "bob"]) =
      ["l1", "l2"] ∧
    TEvent.grantPush "l1" ∈ createTeamsTrace teamsEnvAllOk ["alice", "bob"] ∧
    TEvent.grantPush "l2" ∈ createTeamsTrace teamsEnvAllOk ["alice", "bob"] ∧
    attemptedAdds (createTeamsTrace teamsEnvAllOk ["alice", "bob"]) =
      [("l1", "alice"), ("l2", "alice"), ("l2", "bob")] := by
  have h := claim7_two_teams_membership_push teamsEnvAllOk "alice" ["bob"]
    rfl rfl rfl rfl
  exact ⟨h.1, h.2.1, h.2.2.1, by rw [h.2.2.2]; rfl⟩

/-- C8: (i) within the access-group step each team's push grant appears in
the trace before every membership addition of that team; (ii) which member
additions fail has no influence on which member additions are attempted —
one failed addition never suppresses the remaining members of either team;
(iii) a run that created the repository always reaches the branch-protection
step, whatever happened inside the team step, since the team step cannot
raise. -/
theorem claim8_grant_before_members_isolation :
    (∀ (env : TeamsEnv) (users : List String) (t u : String) (b : Bool),
      TEvent.addMember t u b ∈ createTeamsTrace env users →
      List.Sublist [TEvent.grantPush t, TEvent.addMember t u b]
        (createTeamsTrace env users)) ∧
    (∀ (e1 e2 : TeamsEnv) (users : List String),
      e1.ensureOk = e2.ensureOk → e1.grantOk = e2.grantOk →
      attemptedAdds (createTeamsTrace e1 users) =
        attemptedAdds (createTeamsTrace e2 users)) ∧
    (∀ (menv : MainEnv) (rs : List String), menv.orgOk = true →
      menv.createOk = true → menv.reposList = some rs →
      menv.repoName ∉ rs → Step.protection ∈ (mainRun menv).2) := by
  refine ⟨?_, ?_, ?_⟩
  · intro env users t u b h
    cases users with
    | nil => simp [createTeamsTrace] at h
    | cons u0 us =>
      rw [createTeamsTrace_cons] at h
      rw [createTeamsTrace_cons]
      rcases List.mem_append.mp h with h1 | h2
      · obtain ⟨ht, he, hg, hu, hb⟩ :=
          addMember_mem_teamEvents env "l1" [u0] t u b h1
        subst ht
        exact (grant_before_member env "l1" [u0] u b he hg hu hb).trans
          (List.sublist_append_left _ _)
      · obtain ⟨ht, he, hg, hu, hb⟩ :=
          addMember_mem_teamEvents env "l2" (u0 :: us) t u b h2
        subst ht
        exact (grant_before_member env "l2" (u0 :: us) u b he hg hu hb).trans
          (List.sublist_append_right _ _)
  · intro e1 e2 users he hg
    cases users with
    | nil => simp [createTeamsTrace]
    | cons u0 us =>
      rw [createTeamsTrace_cons, createTeamsTrace_cons,
        attemptedAdds_append, attemptedAdds_append,
        attempted_teamEvents_indep e1 e2 "l1" [u0] he hg,
        attempted_teamEvents_indep e1 e2 "l2" (u0 :: us) he hg]
  · intro menv rs ho hc hl hm
    simp [mainRun, ho, provisionRepo, hl, hm, hc, postCreateSteps]

/-- C8 witness: with `bob`'s addition failing, the `l2` grant still precedes
the failed addition in the trace, the attempted additions coincide with the
all-successful run, and a full organization run reaches the protection
step. -/
theorem claim8_witness :
    List.Sublist [TEvent.grantPush "l2", TEvent.addMember "l2" "bob" false]
      (createTeamsTrace teamsEnvBobFails ["alice", "bob"]) ∧
    attemptedAdds (createTeamsTrace teamsEnvBobFails ["alice", "bob"]) =
      attemptedAdds (createTeamsTrace teamsEnvAllOk ["alice", "bob"]) ∧
    Step.protection ∈ (mainRun envFull).2 :=
  ⟨claim8_grant_before_members_isolation.1 teamsEnvBobFails ["alice", "bob"]
      "l2" "bob" false (by decide),
    claim8_grant_before_members_isolation.2.1 teamsEnvBobFails teamsEnvAllOk
      ["alice", "bob"] rfl rfl,
    claim8_grant_before_members_isolation.2.2 envFull ["other"] rfl rfl rfl
      (by decide)⟩
